import Mathlib

/-!
Verification of `opened-dependabot-pr-slack-report` (final revision of
`src/index.ts`): a one-shot pipeline that fetches open dependabot pull
requests from the GitHub search API, formats them as Slack message blocks
and posts them to a Slack channel.

The TypeScript source is shallowly embedded: JavaScript strings become
`String` (sequences of Unicode scalar values), `Array.prototype.join`,
`String.prototype.replace` and `String.prototype.split` become the
executable functions below, the fp-ts `ReaderTaskEither` pipeline becomes
explicit parameter passing with `Except`, and the two remote APIs become
oracle functions supplied as arguments.
-/

/-- A normalized pull-request record, as built by `getPullRequestsToPublish`
from each GitHub search result item. -/
structure PullRequestSummary where
  title : String
  url : String
  repo : String
deriving DecidableEq, Repr

/-- One item of the GitHub search response (`data.items` entry); only the
three fields the program reads are modelled. -/
structure GithubItem where
  title : String
  html_url : String
  repository_url : String
deriving DecidableEq, Repr

/-- A Slack message block. The program only ever constructs
`{type: "section", text: {type: "mrkdwn", text}}` objects and the
`{type: "divider"}` object; `sectionBlock tt t` models a section block whose
`text` object has `type` = `tt` and `text` = `t`. -/
inductive MessageBlock where
  | sectionBlock (textType : String) (text : String)
  | divider
deriving DecidableEq, Repr

/-- A JavaScript `Error` value, reduced to the only field the program
constructs and propagates: its message. -/
structure JsError where
  message : String
deriving DecidableEq, Repr

/-- A JavaScript throwable: either an `Error` instance or any other value.
A non-`Error` throwable is only ever observed by the program through
`JSON.stringify`, so the model identifies it with its serialization. -/
inductive Throwable where
  | error (e : JsError)
  | other (stringified : String)
deriving DecidableEq, Repr

/-- The configuration record returned by `parseEnvironmentVariables`,
field order as in the source's return object literal. -/
structure RunConfig where
  repositories : List String
  slackChannel : String
  githubToken : String
  slackToken : String
deriving DecidableEq, Repr

/-- The process environment restricted to the four variables the program
reads; `none` models an unset variable. -/
structure Env where
  GITHUB_TOKEN : Option String
  SLACK_TOKEN : Option String
  SLACK_CHANNEL : Option String
  GITHUB_REPOSITORIES : Option String
deriving DecidableEq, Repr

/-! ### JavaScript string primitives -/

/-- `Array.prototype.join(sep)`: concatenation with `sep` between
consecutive elements, `""` on the empty array. -/
def joinSep (sep : String) : List String → String
  | [] => ""
  | [x] => x
  | x :: y :: xs => x ++ sep ++ joinSep sep (y :: xs)

/-- `String.prototype.replace(pat, "")` on character lists: removes the
first occurrence of `pat` (searching left to right), or returns the list
unchanged when `pat` does not occur. An empty `pat` matches at position 0
and removing it leaves the list unchanged, as in JavaScript. -/
def listReplaceFirst (pat : List Char) : List Char → List Char
  | [] => []
  | c :: rest =>
    if pat.isPrefixOf (c :: rest) then (c :: rest).drop pat.length
    else c :: listReplaceFirst pat rest

/-- `String.prototype.includes(pat)` on character lists: does `pat` occur
as a contiguous subsequence? -/
def listContainsSub (pat : List Char) : List Char → Bool
  | [] => pat.isEmpty
  | c :: rest => pat.isPrefixOf (c :: rest) || listContainsSub pat rest

/-- `String.prototype.replace(pat, "")` on strings. -/
def strReplaceFirst (pat s : String) : String :=
  ⟨listReplaceFirst pat.data s.data⟩

/-- `String.prototype.includes(pat)` on strings. -/
def strContainsSub (pat s : String) : Bool :=
  listContainsSub pat.data s.data

/-- `String.prototype.split(",")` on character lists: splits at every
comma, keeping empty segments, with `[""]` for the empty string — the
JavaScript result shape for a one-character separator. -/
def splitCommaList : List Char → List (List Char)
  | [] => [[]]
  | c :: rest =>
    match splitCommaList rest with
    | [] => [[]]
    | cur :: others => if c = ',' then [] :: cur :: others else (c :: cur) :: others

/-- `String.prototype.split(",")` on strings. -/
def strSplitComma (s : String) : List String :=
  (splitCommaList s.data).map String.mk

/-! ### Configuration resolver (`parseEnvironmentVariables`) -/

/-- Error message for a missing `GITHUB_TOKEN` (verbatim from the source). -/
def missingGithubTokenMsg : String :=
  "Missing github authorization token. Set it with the environment variable GITHUB_TOKEN"

/-- Error message for a missing `SLACK_TOKEN` (verbatim from the source). -/
def missingSlackTokenMsg : String :=
  "Missing slack authorization token. Set it with the environment variable SLACK_TOKEN"

/-- Error message for a missing `SLACK_CHANNEL` (verbatim from the source). -/
def missingSlackChannelMsg : String :=
  "Missing slack channel id. Set it with the environment variable SLACK_CHANNEL"

/-- Error message for a missing `GITHUB_REPOSITORIES` (verbatim from the
source, including the `coma-separated` typo). -/
def missingRepositoriesMsg : String :=
  "Missing github repositories to inspect. Set them coma-separated with the environment variable GITHUB_REPOSITORIES"

/-- The source's `if (!v || v.length === 0) throw new Error(msg)` guard:
an unset or empty variable fails with `msg`, otherwise the value passes
through. -/
def envVarOrFail (v : Option String) (msg : String) : Except String String :=
  match v with
  | none => .error msg
  | some s => if s.length = 0 then .error msg else .ok s

/-- `parseEnvironmentVariables`: checks the four variables in source order,
throwing on the first unset-or-empty one, and builds the config; the
repositories variable is split on `","` exactly as
`String.prototype.split(",")` does. -/
def parseEnvironmentVariables (env : Env) : Except String RunConfig := do
  let githubToken ← envVarOrFail env.GITHUB_TOKEN missingGithubTokenMsg
  let slackToken ← envVarOrFail env.SLACK_TOKEN missingSlackTokenMsg
  let slackChannel ← envVarOrFail env.SLACK_CHANNEL missingSlackChannelMsg
  let repositories ← envVarOrFail env.GITHUB_REPOSITORIES missingRepositoriesMsg
  pure ⟨strSplitComma repositories, slackChannel, githubToken, slackToken⟩

/-! ### Pull request fetcher (`getPullRequestsToPublish`) -/

/-- The fixed GitHub API prefix (source constant `githubRepoApiBaseUrl`). -/
def githubRepoApiBaseUrl : String := "https://api.github.com/repos/"

/-- `getRepositoryNameFromRepositoryUrl`: JavaScript
`repositoryUrl.replace(githubRepoApiBaseUrl, "")`, i.e. removal of the
first occurrence of the prefix string anywhere in the URL. -/
def getRepositoryNameFromRepositoryUrl (repositoryUrl : String) : String :=
  strReplaceFirst githubRepoApiBaseUrl repositoryUrl

/-- The search query string built by `getPullRequestsToPublish`:
the template literal
`state:open type:pr author:app/dependabot ${repositories.map(r => "repo:" + r).join(" ")}`. -/
def searchQuery (repositories : List String) : String :=
  "state:open type:pr author:app/dependabot " ++
    joinSep " " (repositories.map (fun repo => "repo:" ++ repo))

/-- The mapping applied to each search result item on fetch success. -/
def toSummary (pullRequest : GithubItem) : PullRequestSummary :=
  ⟨pullRequest.title, pullRequest.html_url,
    getRepositoryNameFromRepositoryUrl pullRequest.repository_url⟩

/-- The `tryCatch` error mapper of the GitHub call: an `Error` instance is
kept as-is, any other throwable becomes an `Error` whose message embeds its
`JSON.stringify` serialization. -/
def wrapGithubError : Throwable → JsError
  | .error e => e
  | .other s => ⟨"An error occurred when calling github api: " ++ s⟩

/-- The `tryCatch` error mapper of the Slack call. -/
def wrapSlackError : Throwable → JsError
  | .error e => e
  | .other s => ⟨"An error occurred when calling slack api: " ++ s⟩

/-- The list of GitHub API requests issued by `getPullRequestsToPublish`:
the source performs exactly one `search.issuesAndPullRequests` call, whose
`q` parameter is the built query. -/
def githubRequests (repositories : List String) : List String :=
  [searchQuery repositories]

/-- `getPullRequestsToPublish`, with the GitHub API as an oracle from the
query string to either a thrown value or the response's `data.items`
array: on failure the throwable is wrapped by the `tryCatch` mapper, on
success every item is mapped to a `PullRequestSummary`. -/
def getPullRequestsToPublish (repositories : List String)
    (api : String → Except Throwable (List GithubItem)) :
    Except JsError (List PullRequestSummary) :=
  match api (searchQuery repositories) with
  | .error t => .error (wrapGithubError t)
  | .ok items => .ok (items.map toSummary)

/-! ### Report formatter (`formatPullRequestsForSlack`)

The source groups the summaries with `readonlyNonEmptyArray.groupBy` — a
string-keyed record whose keys appear in first-encounter order and whose
buckets keep the original element order — and then renders the record with
`readonlyRecord.collect(string.Ord)`, which visits the keys in ascending
order. The record is embedded as an association list built by a left fold,
and `collect` as a sort of the key list followed by bucket lookup. -/

/-- One step of fp-ts `groupBy`: append `pr` to the bucket of its key, or
create a new bucket at the end when the key is not present yet. -/
def addToGroup (pr : PullRequestSummary) :
    List (String × List PullRequestSummary) → List (String × List PullRequestSummary)
  | [] => [(pr.repo, [pr])]
  | g :: rest =>
    if g.1 = pr.repo then (g.1, g.2 ++ [pr]) :: rest else g :: addToGroup pr rest

/-- fp-ts `readonlyNonEmptyArray.groupBy (pr => pr.repo)` as an association
list in first-encounter key order. -/
def groupByRepo (pullRequests : List PullRequestSummary) :
    List (String × List PullRequestSummary) :=
  pullRequests.foldl (fun acc pr => addToGroup pr acc) []

/-- Record access `r[k]` on the association-list embedding (the program
only reads keys that are present; absent keys default to `[]`). -/
def recordLookup (groups : List (String × List PullRequestSummary)) (k : String) :
    List PullRequestSummary :=
  match groups with
  | [] => []
  | g :: rest => if g.1 = k then g.2 else recordLookup rest k

/-- fp-ts `readonlyRecord.collect(string.Ord)`: visit the record's keys in
ascending order, pairing each with its bucket. -/
def collectGroups (groups : List (String × List PullRequestSummary)) :
    List (String × List PullRequestSummary) :=
  (List.insertionSort (fun a b => a ≤ b) (groups.map Prod.fst)).map
    (fun k => (k, recordLookup groups k))

/-- The `"• <url|title>"` entry rendered for one pull request. -/
def bulletEntry (pr : PullRequestSummary) : String :=
  "• <" ++ pr.url ++ "|" ++ pr.title ++ ">"

/-- The pair of section blocks rendered for one repository group:
the bold repository name, then the newline-joined bullet list. -/
def groupBlocks (g : String × List PullRequestSummary) : List MessageBlock :=
  [MessageBlock.sectionBlock "mrkdwn" ("*" ++ g.1 ++ "*"),
   MessageBlock.sectionBlock "mrkdwn" (joinSep "\n" (g.2.map bulletEntry))]

/-- `formatPullRequestsForSlack` (final revision): the empty input yields
the single `:tada:` section block; a non-empty input is grouped by `repo`,
the groups are visited in ascending key order and each contributes its two
section blocks. This revision prepends no header block and no divider. -/
def formatPullRequestsForSlack (pullRequests : List PullRequestSummary) :
    List MessageBlock :=
  match pullRequests with
  | [] => [MessageBlock.sectionBlock "mrkdwn" ":tada: *No opened dependabot pull request*"]
  | _ :: _ => ((collectGroups (groupByRepo pullRequests)).map groupBlocks).flatten

/-! ### Slack publisher (`postSlackMessage`) and main pipeline -/

/-- `postSlackMessage`, with the Slack API as an oracle from the channel
and block list to either a thrown value or success. -/
def postSlackMessage (blocks : List MessageBlock) (slackChannel : String)
    (api : String → List MessageBlock → Except Throwable Unit) :
    Except JsError Unit :=
  match api slackChannel blocks with
  | .error t => .error (wrapSlackError t)
  | .ok u => .ok u

/-- The whole pipeline after configuration: fetch, format, publish, then
`readerTaskEither.match` deciding the exit code (1 on any error, 0 on
success). The second component records each Slack publish call actually
issued, so that short-circuiting is observable in the model. -/
def mainPipeline (cfg : RunConfig)
    (githubApi : String → Except Throwable (List GithubItem))
    (slackApi : String → List MessageBlock → Except Throwable Unit) :
    Nat × List (List MessageBlock) :=
  match getPullRequestsToPublish cfg.repositories githubApi with
  | .error _ => (1, [])
  | .ok summaries =>
    let blocks := formatPullRequestsForSlack summaries
    match postSlackMessage blocks cfg.slackChannel slackApi with
    | .error _ => (1, [blocks])
    | .ok _ => (0, [blocks])

/-! ### Further definitions used by the claim statements -/

/-- A variable value rejected by the source's `!v || v.length === 0`
guard: unset, or set to the empty string. -/
def isMissingVar (v : Option String) : Prop := v = none ∨ v = some ""

/-- The query shape stated by the specification (refinement target,
written from the spec's words): the three fixed qualifiers followed by one
`repo:` term per configured repository, all space-separated. -/
def searchQuerySpec (repositories : List String) : String :=
  joinSep " " (["state:open", "type:pr", "author:app/dependabot"] ++
    repositories.map (fun repo => "repo:" ++ repo))

/-- Invariant of the `groupBy` fold: after processing the prefix `p` of
the input, the accumulated record has pairwise-distinct keys, its keys are
exactly the repository names seen in `p`, and every bucket is the
subsequence of `p` with that repository name, in order. -/
def GoodAcc (p : List PullRequestSummary)
    (acc : List (String × List PullRequestSummary)) : Prop :=
  (acc.map Prod.fst).Nodup ∧
  (∀ k, k ∈ acc.map Prod.fst ↔ k ∈ p.map PullRequestSummary.repo) ∧
  (∀ g ∈ acc, g.2 = p.filter (fun pr => pr.repo == g.1))

/-- The distinct repository names of the input in ascending order — the
key order in which `collectGroups` renders the record. -/
def sortedRepoKeys (xs : List PullRequestSummary) : List String :=
  List.insertionSort (fun a b => a ≤ b) ((groupByRepo xs).map Prod.fst)

/-! ### Lemmas about `listReplaceFirst` -/

theorem listReplaceFirst_of_not_contains (pat : List Char) :
    ∀ l : List Char, listContainsSub pat l = false → listReplaceFirst pat l = l := by
  intro l
  induction l with
  | nil => intro _; rfl
  | cons c rest ih =>
    intro h
    simp only [listContainsSub, Bool.or_eq_false_iff] at h
    simp only [listReplaceFirst, h.1, Bool.false_eq_true, if_false, ih h.2]

theorem listReplaceFirst_append (pat t : List Char) :
    listReplaceFirst pat (pat ++ t) = t := by
  cases pat with
  | nil =>
    cases t with
    | nil => rfl
    | cons c rest => simp [listReplaceFirst, List.isPrefixOf]
  | cons p ps =>
    have hpre : (p :: ps).isPrefixOf (p :: (ps ++ t)) = true :=
      List.isPrefixOf_iff_prefix.mpr ⟨t, by simp⟩
    have hdrop : List.drop (p :: ps).length (p :: (ps ++ t)) = t :=
      List.drop_left (p :: ps) t
    simp [listReplaceFirst, hpre, hdrop]

theorem listReplaceFirst_of_prefix (pat l : List Char)
    (h : pat.isPrefixOf l = true) : pat ++ listReplaceFirst pat l = l := by
  obtain ⟨t, rfl⟩ := List.isPrefixOf_iff_prefix.mp h
  rw [listReplaceFirst_append]

theorem listReplaceFirst_first_occurrence (pat : List Char) :
    ∀ a b : List Char,
      (∀ i, i < a.length → pat.isPrefixOf ((a ++ pat ++ b).drop i) = false) →
      listReplaceFirst pat (a ++ pat ++ b) = a ++ b := by
  intro a
  induction a with
  | nil =>
    intro b _
    simp only [List.nil_append]
    exact listReplaceFirst_append pat b
  | cons c a' ih =>
    intro b h
    have h0 : ¬ pat <+: c :: (a' ++ (pat ++ b)) := by
      have h0' := h 0 (by simp)
      simp only [List.drop_zero, List.cons_append, List.append_assoc] at h0'
      intro hcontra
      rw [List.isPrefixOf_iff_prefix.mpr hcontra] at h0'
      exact Bool.true_eq_false.mp h0'
    have hrest : listReplaceFirst pat (a' ++ pat ++ b) = a' ++ b := by
      refine ih b (fun i hi => ?_)
      have hi' := h (i + 1) (by simpa using Nat.succ_lt_succ hi)
      simpa using hi'
    calc listReplaceFirst pat ((c :: a') ++ pat ++ b)
        = listReplaceFirst pat (c :: (a' ++ pat ++ b)) := by simp
      _ = c :: listReplaceFirst pat (a' ++ pat ++ b) := by
          simp [listReplaceFirst, h0]
      _ = c :: (a' ++ b) := by rw [hrest]
      _ = (c :: a') ++ b := by simp

/-! ### Claims C3 and C9: repository name derivation -/

/-- Claim C3: for every repository API URL that starts with the prefix
`https://api.github.com/repos/`, stripping the prefix with
`getRepositoryNameFromRepositoryUrl` and re-prepending the same prefix
yields the original URL. -/
theorem getRepositoryNameFromRepositoryUrl_roundTrip (url : String)
    (h : githubRepoApiBaseUrl.data.isPrefixOf url.data = true) :
    githubRepoApiBaseUrl ++ getRepositoryNameFromRepositoryUrl url = url := by
  cases url with
  | mk d =>
    apply String.ext
    exact listReplaceFirst_of_prefix githubRepoApiBaseUrl.data d h

/-- Witness for C3 at the concrete URL
`https://api.github.com/repos/inato/some-repo`. -/
theorem getRepositoryNameFromRepositoryUrl_roundTrip_witness :
    githubRepoApiBaseUrl.data.isPrefixOf
        "https://api.github.com/repos/inato/some-repo".data = true ∧
    githubRepoApiBaseUrl ++
        getRepositoryNameFromRepositoryUrl "https://api.github.com/repos/inato/some-repo" =
      "https://api.github.com/repos/inato/some-repo" :=
  ⟨by decide,
   getRepositoryNameFromRepositoryUrl_roundTrip
     "https://api.github.com/repos/inato/some-repo" (by decide)⟩

/-- Claim C9: the derivation removes the first occurrence of the prefix
substring anywhere in the URL (not only a leading prefix); a URL that does
not contain the substring at all is returned unchanged; and every search
item — malformed or not — is mapped to exactly one summary, a URL without
the substring passing through verbatim. -/
theorem getRepositoryNameFromRepositoryUrl_replaceFirst_behavior :
    (∀ url : String, strContainsSub githubRepoApiBaseUrl url = false →
        getRepositoryNameFromRepositoryUrl url = url) ∧
    (∀ a b : List Char,
        (∀ i, i < a.length →
            githubRepoApiBaseUrl.data.isPrefixOf
              ((a ++ githubRepoApiBaseUrl.data ++ b).drop i) = false) →
        listReplaceFirst githubRepoApiBaseUrl.data
            (a ++ githubRepoApiBaseUrl.data ++ b) = a ++ b) ∧
    (∀ items : List GithubItem, (items.map toSummary).length = items.length) ∧
    (∀ item : GithubItem,
        strContainsSub githubRepoApiBaseUrl item.repository_url = false →
        toSummary item = ⟨item.title, item.html_url, item.repository_url⟩) := by
  have hid : ∀ url : String, strContainsSub githubRepoApiBaseUrl url = false →
      getRepositoryNameFromRepositoryUrl url = url := by
    intro url h
    cases url with
    | mk d =>
      apply String.ext
      exact listReplaceFirst_of_not_contains githubRepoApiBaseUrl.data d h
  refine ⟨hid, listReplaceFirst_first_occurrence githubRepoApiBaseUrl.data,
    fun items => List.length_map items toSummary, fun item h => ?_⟩
  unfold toSummary
  rw [hid item.repository_url h]

/-- Witness for C9: a mid-string occurrence of the prefix is removed
(`x<prefix>y` becomes `xy`), and a URL without the prefix is unchanged. -/
theorem getRepositoryNameFromRepositoryUrl_replaceFirst_behavior_witness :
    listReplaceFirst githubRepoApiBaseUrl.data
        ("x".data ++ githubRepoApiBaseUrl.data ++ "y".data) = "x".data ++ "y".data ∧
    getRepositoryNameFromRepositoryUrl "github.com/inato/foo" = "github.com/inato/foo" :=
  ⟨getRepositoryNameFromRepositoryUrl_replaceFirst_behavior.2.1 "x".data "y".data (by decide),
   getRepositoryNameFromRepositoryUrl_replaceFirst_behavior.1 "github.com/inato/foo" (by decide)⟩

/-! ### Claim C4: configuration resolution -/

theorem envVarOrFail_missing (v : Option String) (msg : String)
    (h : isMissingVar v) : envVarOrFail v msg = .error msg := by
  rcases h with h | h <;> simp [envVarOrFail, h]

theorem envVarOrFail_ok (v : Option String) (msg s : String)
    (hv : v = some s) (hs : s ≠ "") : envVarOrFail v msg = .ok s := by
  have hlen : s.length ≠ 0 := by
    intro h0
    apply hs
    apply String.ext
    exact List.length_eq_zero.mp h0
  simp [envVarOrFail, hv, hlen]

/-- Claim C4: the resolver reports the first unset-or-empty variable in
the order `GITHUB_TOKEN`, `SLACK_TOKEN`, `SLACK_CHANNEL`,
`GITHUB_REPOSITORIES` with an error message naming that variable (the
final conjuncts check that each message contains the variable name), and
when all four are present and non-empty it returns the config whose
repositories are the raw `","`-split of `GITHUB_REPOSITORIES` and whose
other fields are the variables unchanged. -/
theorem parseEnvironmentVariables_spec (env : Env) :
    (isMissingVar env.GITHUB_TOKEN →
      parseEnvironmentVariables env = .error missingGithubTokenMsg) ∧
    (∀ g, env.GITHUB_TOKEN = some g → g ≠ "" →
      isMissingVar env.SLACK_TOKEN →
      parseEnvironmentVariables env = .error missingSlackTokenMsg) ∧
    (∀ g s, env.GITHUB_TOKEN = some g → g ≠ "" →
      env.SLACK_TOKEN = some s → s ≠ "" →
      isMissingVar env.SLACK_CHANNEL →
      parseEnvironmentVariables env = .error missingSlackChannelMsg) ∧
    (∀ g s c, env.GITHUB_TOKEN = some g → g ≠ "" →
      env.SLACK_TOKEN = some s → s ≠ "" →
      env.SLACK_CHANNEL = some c → c ≠ "" →
      isMissingVar env.GITHUB_REPOSITORIES →
      parseEnvironmentVariables env = .error missingRepositoriesMsg) ∧
    (∀ g s c r, env.GITHUB_TOKEN = some g → g ≠ "" →
      env.SLACK_TOKEN = some s → s ≠ "" →
      env.SLACK_CHANNEL = some c → c ≠ "" →
      env.GITHUB_REPOSITORIES = some r → r ≠ "" →
      parseEnvironmentVariables env = .ok ⟨strSplitComma r, c, g, s⟩) ∧
    strContainsSub "GITHUB_TOKEN" missingGithubTokenMsg = true ∧
    strContainsSub "SLACK_TOKEN" missingSlackTokenMsg = true ∧
    strContainsSub "SLACK_CHANNEL" missingSlackChannelMsg = true ∧
    strContainsSub "GITHUB_REPOSITORIES" missingRepositoriesMsg = true := by
  refine ⟨?_, ?_, ?_, ?_, ?_, by rfl, by rfl, by rfl, by rfl⟩
  · intro h
    simp only [parseEnvironmentVariables, envVarOrFail_missing _ _ h]
    rfl
  · intro g hg hg' h
    simp only [parseEnvironmentVariables, envVarOrFail_ok _ _ _ hg hg',
      envVarOrFail_missing _ _ h]
    rfl
  · intro g s hg hg' hs hs' h
    simp only [parseEnvironmentVariables, envVarOrFail_ok _ _ _ hg hg',
      envVarOrFail_ok _ _ _ hs hs', envVarOrFail_missing _ _ h]
    rfl
  · intro g s c hg hg' hs hs' hc hc' h
    simp only [parseEnvironmentVariables, envVarOrFail_ok _ _ _ hg hg',
      envVarOrFail_ok _ _ _ hs hs', envVarOrFail_ok _ _ _ hc hc',
      envVarOrFail_missing _ _ h]
    rfl
  · intro g s c r hg hg' hs hs' hc hc' hr hr'
    simp only [parseEnvironmentVariables, envVarOrFail_ok _ _ _ hg hg',
      envVarOrFail_ok _ _ _ hs hs', envVarOrFail_ok _ _ _ hc hc',
      envVarOrFail_ok _ _ _ hr hr']
    rfl

/-- Witness for C4: a fully-populated environment resolves to the split
repository list, and dropping `SLACK_CHANNEL` alone fails with the message
naming it. -/
theorem parseEnvironmentVariables_spec_witness :
    parseEnvironmentVariables ⟨some "gh", some "sl", some "ch", some "r/a,r/b"⟩ =
      .ok ⟨["r/a", "r/b"], "ch", "gh", "sl"⟩ ∧
    parseEnvironmentVariables ⟨some "gh", some "sl", none, some "r/a,r/b"⟩ =
      .error missingSlackChannelMsg :=
  ⟨((parseEnvironmentVariables_spec
        ⟨some "gh", some "sl", some "ch", some "r/a,r/b"⟩).2.2.2.2.1
        "gh" "sl" "ch" "r/a,r/b" rfl (by decide) rfl (by decide) rfl (by decide)
        rfl (by decide)).trans (congrArg Except.ok (by decide)),
   (parseEnvironmentVariables_spec
        ⟨some "gh", some "sl", none, some "r/a,r/b"⟩).2.2.1
        "gh" "sl" rfl (by decide) rfl (by decide) (Or.inl rfl)⟩

/-! ### Claim C5: the search query -/

/-- Claim C5: for every non-empty configured repository list the built
query string is exactly the spec's
`state:open type:pr author:app/dependabot repo:r1 ... repo:rn`, and the
fetch step issues exactly one search request, carrying that query. -/
theorem searchQuery_spec_eq (repositories : List String)
    (h : repositories ≠ []) :
    searchQuery repositories = searchQuerySpec repositories ∧
    githubRequests repositories = [searchQuerySpec repositories] := by
  have hq : searchQuery repositories = searchQuerySpec repositories := by
    cases repositories with
    | nil => exact absurd rfl h
    | cons r rs =>
      show "state:open type:pr author:app/dependabot " ++
          joinSep " " (("repo:" ++ r) :: rs.map (fun repo => "repo:" ++ repo)) =
        joinSep " " ("state:open" :: "type:pr" :: "author:app/dependabot" ::
          ("repo:" ++ r) :: rs.map (fun repo => "repo:" ++ repo))
      have hlit : ("state:open type:pr author:app/dependabot " : String) =
          "state:open" ++ " " ++ ("type:pr" ++ " " ++ ("author:app/dependabot" ++ " ")) := rfl
      rw [hlit]
      simp only [joinSep, String.append_assoc]
  exact ⟨hq, by simp only [githubRequests, hq]⟩

/-- Witness for C5 at the two-repository configuration
`["inato/a", "inato/b"]`. -/
theorem searchQuery_spec_eq_witness :
    searchQuery ["inato/a", "inato/b"] = searchQuerySpec ["inato/a", "inato/b"] ∧
    githubRequests ["inato/a", "inato/b"] = [searchQuerySpec ["inato/a", "inato/b"]] :=
  searchQuery_spec_eq ["inato/a", "inato/b"] (by decide)

/-! ### Claims C6 and C7: pipeline short-circuiting and error wrapping -/

/-- Claim C6: the pipeline is short-circuiting. If the GitHub call fails,
no Slack publish is ever issued and the run exits with code 1; if the
GitHub call succeeds and the Slack call fails, exactly the one attempted
publish is issued (no degraded fallback) and the run exits with code 1;
only when both remote calls succeed does the run exit with code 0, having
published exactly the formatted blocks. -/
theorem mainPipeline_short_circuit (cfg : RunConfig)
    (githubApi : String → Except Throwable (List GithubItem))
    (slackApi : String → List MessageBlock → Except Throwable Unit) :
    (∀ t, githubApi (searchQuery cfg.repositories) = .error t →
      mainPipeline cfg githubApi slackApi = (1, [])) ∧
    (∀ items t, githubApi (searchQuery cfg.repositories) = .ok items →
      slackApi cfg.slackChannel
          (formatPullRequestsForSlack (items.map toSummary)) = .error t →
      mainPipeline cfg githubApi slackApi =
        (1, [formatPullRequestsForSlack (items.map toSummary)])) ∧
    (∀ items, githubApi (searchQuery cfg.repositories) = .ok items →
      slackApi cfg.slackChannel
          (formatPullRequestsForSlack (items.map toSummary)) = .ok () →
      mainPipeline cfg githubApi slackApi =
        (0, [formatPullRequestsForSlack (items.map toSummary)])) := by
  refine ⟨fun t ht => ?_, fun items t hi ht => ?_, fun items hi ht => ?_⟩
  · simp [mainPipeline, getPullRequestsToPublish, ht]
  · simp [mainPipeline, getPullRequestsToPublish, postSlackMessage, hi, ht]
  · simp [mainPipeline, getPullRequestsToPublish, postSlackMessage, hi, ht]

/-- Witness for C6: with a GitHub oracle that throws, the run exits 1 and
publishes nothing; with both oracles succeeding on no items, the run exits
0 and publishes the single celebratory block. -/
theorem mainPipeline_short_circuit_witness :
    mainPipeline ⟨["inato/a"], "C123", "gh", "sl"⟩
        (fun _ => .error (.other "boom")) (fun _ _ => .ok ()) = (1, []) ∧
    mainPipeline ⟨["inato/a"], "C123", "gh", "sl"⟩
        (fun _ => .ok []) (fun _ _ => .ok ()) =
      (0, [[MessageBlock.sectionBlock "mrkdwn"
            ":tada: *No opened dependabot pull request*"]]) :=
  ⟨(mainPipeline_short_circuit ⟨["inato/a"], "C123", "gh", "sl"⟩
      (fun _ => .error (.other "boom")) (fun _ _ => .ok ())).1
      (.other "boom") rfl,
   (mainPipeline_short_circuit ⟨["inato/a"], "C123", "gh", "sl"⟩
      (fun _ => .ok []) (fun _ _ => .ok ())).2.2 [] rfl rfl⟩

/-- Claim C7: both `tryCatch` error mappers keep an `Error` instance
unchanged and turn a non-`Error` throwable into an `Error` whose message
names the failing API call and embeds the serialized value; a failing
oracle call puts exactly the mapped error into the error branch of the
step's result. -/
theorem tryCatch_error_wrapping :
    (∀ e : JsError, wrapGithubError (.error e) = e) ∧
    (∀ s : String, wrapGithubError (.other s) =
      ⟨"An error occurred when calling github api: " ++ s⟩) ∧
    (∀ e : JsError, wrapSlackError (.error e) = e) ∧
    (∀ s : String, wrapSlackError (.other s) =
      ⟨"An error occurred when calling slack api: " ++ s⟩) ∧
    (∀ repositories api t, api (searchQuery repositories) = .error t →
      getPullRequestsToPublish repositories api = .error (wrapGithubError t)) ∧
    (∀ blocks slackChannel api t, api slackChannel blocks = .error t →
      postSlackMessage blocks slackChannel api = .error (wrapSlackError t)) := by
  refine ⟨fun e => rfl, fun s => rfl, fun e => rfl, fun s => rfl,
    fun repositories api t ht => ?_, fun blocks slackChannel api t ht => ?_⟩
  · simp [getPullRequestsToPublish, ht]
  · simp [postSlackMessage, ht]

/-- Witness for C7: a non-`Error` throwable from the GitHub oracle is
wrapped with the github-api message, and an `Error` from the Slack oracle
is preserved unchanged. -/
theorem tryCatch_error_wrapping_witness :
    getPullRequestsToPublish ["inato/a"] (fun _ => .error (.other "42")) =
      .error ⟨"An error occurred when calling github api: 42"⟩ ∧
    postSlackMessage [] "C123" (fun _ _ => .error (.error ⟨"rate limited"⟩)) =
      .error ⟨"rate limited"⟩ :=
  ⟨tryCatch_error_wrapping.2.2.2.2.1 ["inato/a"]
      (fun _ => .error (.other "42")) (.other "42") rfl,
   tryCatch_error_wrapping.2.2.2.2.2 [] "C123"
      (fun _ _ => .error (.error ⟨"rate limited"⟩)) (.error ⟨"rate limited"⟩) rfl⟩

/-! ### Claims C1 and C10: formatter grouping -/

theorem addToGroup_keys (pr : PullRequestSummary) :
    ∀ acc : List (String × List PullRequestSummary),
      (addToGroup pr acc).map Prod.fst =
        if pr.repo ∈ acc.map Prod.fst then acc.map Prod.fst
        else acc.map Prod.fst ++ [pr.repo] := by
  intro acc
  induction acc with
  | nil => simp [addToGroup]
  | cons g rest ih =>
    by_cases h : g.1 = pr.repo
    · simp [addToGroup, h]
    · by_cases h2 : pr.repo ∈ rest.map Prod.fst
      · simp [addToGroup, h, ih, h2, Ne.symm h]
      · simp [addToGroup, h, ih, h2, Ne.symm h]

theorem recordLookup_not_mem :
    ∀ (acc : List (String × List PullRequestSummary)) (k : String),
      k ∉ acc.map Prod.fst → recordLookup acc k = [] := by
  intro acc
  induction acc with
  | nil => intro k _; rfl
  | cons g rest ih =>
    intro k hk
    simp only [List.map_cons, List.mem_cons, not_or] at hk
    simp only [recordLookup, Ne.symm hk.1, if_false]
    exact ih k hk.2

theorem recordLookup_filter (p : List PullRequestSummary) :
    ∀ (acc : List (String × List PullRequestSummary)) (k : String),
      (∀ g ∈ acc, g.2 = p.filter (fun pr => pr.repo == g.1)) →
      k ∈ acc.map Prod.fst →
      recordLookup acc k = p.filter (fun pr => pr.repo == k) := by
  intro acc
  induction acc with
  | nil => intro k _ hk; simp at hk
  | cons g rest ih =>
    intro k hbuck hk
    by_cases h : g.1 = k
    · simp only [recordLookup, h, if_true]
      have := hbuck g (List.mem_cons_self g rest)
      rw [this, h]
    · simp only [recordLookup, h, if_false]
      refine ih k (fun g' hg' => hbuck g' (List.mem_cons_of_mem g hg')) ?_
      simp only [List.map_cons, List.mem_cons] at hk
      exact hk.resolve_left (fun hs => h hs.symm)

theorem addToGroup_mem (pr : PullRequestSummary) :
    ∀ acc : List (String × List PullRequestSummary),
      (acc.map Prod.fst).Nodup →
      ∀ g' ∈ addToGroup pr acc,
        (g' ∈ acc ∧ g'.1 ≠ pr.repo) ∨
        (g'.1 = pr.repo ∧ g'.2 = recordLookup acc pr.repo ++ [pr]) := by
  intro acc
  induction acc with
  | nil =>
    intro _ g' hg'
    simp only [addToGroup, List.mem_singleton] at hg'
    right
    rw [hg']
    exact ⟨rfl, rfl⟩
  | cons g rest ih =>
    intro hnd g' hg'
    have hcons : (g.1 :: rest.map Prod.fst).Nodup := hnd
    have hpair := List.nodup_cons.mp hcons
    have hnd' : (rest.map Prod.fst).Nodup := hpair.2
    by_cases h : g.1 = pr.repo
    · simp only [addToGroup, h, if_true] at hg'
      rcases List.mem_cons.mp hg' with hhead | htail
      · right
        rw [hhead]
        refine ⟨rfl, ?_⟩
        simp [recordLookup, h]
      · left
        refine ⟨List.mem_cons_of_mem g htail, fun hcontra => ?_⟩
        have hg1 : g.1 ∈ rest.map Prod.fst := by
          rw [h, ← hcontra]
          exact List.mem_map_of_mem Prod.fst htail
        exact hpair.1 hg1
    · simp only [addToGroup, h, if_false] at hg'
      rcases List.mem_cons.mp hg' with hhead | htail
      · left
        rw [hhead]
        exact ⟨List.mem_cons_self g rest, h⟩
      · rcases ih hnd' g' htail with ⟨hmem, hne⟩ | ⟨heq, hb⟩
        · exact Or.inl ⟨List.mem_cons_of_mem g hmem, hne⟩
        · right
          refine ⟨heq, ?_⟩
          rw [hb]
          simp only [recordLookup, h, if_false]

theorem goodAcc_step (p : List PullRequestSummary) (pr : PullRequestSummary)
    (acc : List (String × List PullRequestSummary)) (hg : GoodAcc p acc) :
    GoodAcc (p ++ [pr]) (addToGroup pr acc) := by
  obtain ⟨hnd, hmem, hbuck⟩ := hg
  refine ⟨?_, ?_, ?_⟩
  · rw [addToGroup_keys]
    by_cases hin : pr.repo ∈ acc.map Prod.fst
    · simpa [hin] using hnd
    · simp only [hin, if_false]
      refine ((List.perm_append_singleton pr.repo (acc.map Prod.fst)).nodup_iff).mpr ?_
      exact List.nodup_cons.mpr ⟨hin, hnd⟩
  · intro k
    rw [addToGroup_keys]
    have hrhs : k ∈ (p ++ [pr]).map PullRequestSummary.repo ↔
        k ∈ p.map PullRequestSummary.repo ∨ k = pr.repo := by
      simp
    by_cases hin : pr.repo ∈ acc.map Prod.fst
    · simp only [hin, if_true]
      rw [hrhs, hmem]
      constructor
      · exact Or.inl
      · rintro (hk | rfl)
        · exact hk
        · exact (hmem pr.repo).mp hin
    · simp only [hin, if_false]
      rw [hrhs]
      simp only [List.mem_append, List.mem_singleton, hmem]
  · intro g' hg'
    rcases addToGroup_mem pr acc hnd g' hg' with ⟨hmem', hne⟩ | ⟨heq, hb⟩
    · rw [hbuck g' hmem', List.filter_append]
      have hnil : [pr].filter (fun q => q.repo == g'.1) = [] := by
        simp only [List.filter, beq_eq_false_iff_ne]
        have : (pr.repo == g'.1) = false := by
          simp [Ne.symm hne]
        simp [this]
      rw [hnil, List.append_nil]
    · rw [hb, List.filter_append, heq]
      have hsingle : [pr].filter (fun q => q.repo == pr.repo) = [pr] := by
        simp
      rw [hsingle]
      congr 1
      by_cases hin : pr.repo ∈ acc.map Prod.fst
      · exact recordLookup_filter p acc pr.repo hbuck hin
      · rw [recordLookup_not_mem acc pr.repo hin]
        have hnotp : pr.repo ∉ p.map PullRequestSummary.repo :=
          fun hc => hin ((hmem pr.repo).mpr hc)
        symm
        simp only [List.filter_eq_nil_iff]
        intro q hq hbeq
        exact hnotp (by
          have : q.repo = pr.repo := by simpa using hbeq
          rw [← this]
          exact List.mem_map_of_mem PullRequestSummary.repo hq)

theorem groupByRepo_good (xs : List PullRequestSummary) :
    GoodAcc xs (groupByRepo xs) := by
  suffices h : ∀ (ys p : List PullRequestSummary) acc, GoodAcc p acc →
      GoodAcc (p ++ ys) (ys.foldl (fun a pr => addToGroup pr a) acc) by
    have h0 : GoodAcc [] ([] : List (String × List PullRequestSummary)) := by
      refine ⟨List.nodup_nil, fun k => ?_, fun g hg => absurd hg (List.not_mem_nil g)⟩
      simp
    simpa using h xs [] [] h0
  intro ys
  induction ys with
  | nil => intro p acc h; simpa using h
  | cons y ys ih =>
    intro p acc h
    have hstep := goodAcc_step p y acc h
    have hrec := ih (p ++ [y]) (addToGroup y acc) hstep
    rw [List.append_assoc] at hrec
    exact hrec

theorem recordLookup_groupByRepo (xs : List PullRequestSummary) (k : String) :
    recordLookup (groupByRepo xs) k = xs.filter (fun pr => pr.repo == k) := by
  obtain ⟨hnd, hmem, hbuck⟩ := groupByRepo_good xs
  by_cases hin : k ∈ (groupByRepo xs).map Prod.fst
  · exact recordLookup_filter xs (groupByRepo xs) k hbuck hin
  · rw [recordLookup_not_mem (groupByRepo xs) k hin]
    have hnotp : k ∉ xs.map PullRequestSummary.repo :=
      fun hc => hin ((hmem k).mpr hc)
    symm
    simp only [List.filter_eq_nil_iff]
    intro q hq hbeq
    exact hnotp (by
      have : q.repo = k := by simpa using hbeq
      rw [← this]
      exact List.mem_map_of_mem PullRequestSummary.repo hq)

theorem sortedRepoKeys_pairwise (xs : List PullRequestSummary) :
    List.Pairwise (fun a b => a < b) (sortedRepoKeys xs) := by
  have hnd_keys : ((groupByRepo xs).map Prod.fst).Nodup := (groupByRepo_good xs).1
  have hperm := List.perm_insertionSort (fun a b : String => a ≤ b)
    ((groupByRepo xs).map Prod.fst)
  have hnd : (sortedRepoKeys xs).Nodup := hperm.nodup_iff.mpr hnd_keys
  have hsorted : List.Sorted (fun a b : String => a ≤ b) (sortedRepoKeys xs) :=
    List.sorted_insertionSort (fun a b : String => a ≤ b)
      ((groupByRepo xs).map Prod.fst)
  exact (hsorted.and hnd).imp (fun hab => lt_of_le_of_ne hab.1 hab.2)

theorem sortedRepoKeys_mem (xs : List PullRequestSummary) (k : String) :
    k ∈ sortedRepoKeys xs ↔ k ∈ xs.map PullRequestSummary.repo := by
  unfold sortedRepoKeys
  rw [List.mem_insertionSort]
  exact (groupByRepo_good xs).2.1 k

theorem format_eq_sortedGroups (xs : List PullRequestSummary) (h : xs ≠ []) :
    formatPullRequestsForSlack xs =
      ((sortedRepoKeys xs).map (fun k =>
        [MessageBlock.sectionBlock "mrkdwn" ("*" ++ k ++ "*"),
         MessageBlock.sectionBlock "mrkdwn"
           (joinSep "\n" ((xs.filter (fun pr => pr.repo == k)).map bulletEntry))])).flatten := by
  cases xs with
  | nil => exact absurd rfl h
  | cons x xs' =>
    show ((collectGroups (groupByRepo (x :: xs'))).map groupBlocks).flatten = _
    unfold collectGroups
    rw [List.map_map]
    congr 1
    refine List.map_congr_left (fun k _ => ?_)
    simp only [Function.comp_apply, groupBlocks, recordLookup_groupByRepo]

/-- Claim C1 (amended: the final revision emits no header block and no
divider): for every non-empty input the formatter's output is exactly, for
each distinct repository name in ascending lexicographic order, a section
block with the repository name in bold followed by a section block whose
text is the newline-joined `• <url|title>` entries of that repository's
pull requests in their original input order; every input entry thus lands
in exactly the one group of its repository, in original relative order. -/
theorem formatPullRequestsForSlack_groups_sorted (xs : List PullRequestSummary)
    (h : xs ≠ []) :
    ∃ ks : List String,
      List.Pairwise (fun a b => a < b) ks ∧
      (∀ k, k ∈ ks ↔ k ∈ xs.map PullRequestSummary.repo) ∧
      formatPullRequestsForSlack xs =
        (ks.map (fun k =>
          [MessageBlock.sectionBlock "mrkdwn" ("*" ++ k ++ "*"),
           MessageBlock.sectionBlock "mrkdwn"
             (joinSep "\n" ((xs.filter (fun pr => pr.repo == k)).map bulletEntry))])).flatten :=
  ⟨sortedRepoKeys xs, sortedRepoKeys_pairwise xs,
    sortedRepoKeys_mem xs, format_eq_sortedGroups xs h⟩

/-- Witness for C1 (amended) at a concrete two-repository input given in
descending repository order. -/
theorem formatPullRequestsForSlack_groups_sorted_witness :
    ∃ ks : List String,
      List.Pairwise (fun a b => a < b) ks ∧
      (∀ k, k ∈ ks ↔ k ∈
        ([⟨"Bump lodash", "u1", "inato/b"⟩, ⟨"Bump esbuild", "u2", "inato/a"⟩] :
          List PullRequestSummary).map PullRequestSummary.repo) ∧
      formatPullRequestsForSlack
          [⟨"Bump lodash", "u1", "inato/b"⟩, ⟨"Bump esbuild", "u2", "inato/a"⟩] =
        (ks.map (fun k =>
          [MessageBlock.sectionBlock "mrkdwn" ("*" ++ k ++ "*"),
           MessageBlock.sectionBlock "mrkdwn"
             (joinSep "\n"
               ((([⟨"Bump lodash", "u1", "inato/b"⟩, ⟨"Bump esbuild", "u2", "inato/a"⟩] :
                 List PullRequestSummary).filter (fun pr => pr.repo == k)).map
                 bulletEntry))])).flatten :=
  formatPullRequestsForSlack_groups_sorted
    [⟨"Bump lodash", "u1", "inato/b"⟩, ⟨"Bump esbuild", "u2", "inato/a"⟩]
    (by simp)

/-- Counterexample to claim C1 as stated: on a non-empty input the output
of the final revision starts with the per-repository section block — not
with the claimed fixed header block — and contains no divider block. -/
theorem formatPullRequestsForSlack_no_header_counterexample :
    (formatPullRequestsForSlack
        [⟨"Bump lodash", "https://github.com/inato/a/pull/1", "inato/a"⟩]).head? ≠
      some (MessageBlock.sectionBlock "mrkdwn"
        "*Currently opened dependabot pull request:*") ∧
    MessageBlock.divider ∉
      formatPullRequestsForSlack
        [⟨"Bump lodash", "https://github.com/inato/a/pull/1", "inato/a"⟩] := by
  decide

theorem format_length (xs : List PullRequestSummary) (h : xs ≠ []) :
    (formatPullRequestsForSlack xs).length = 2 * (sortedRepoKeys xs).length := by
  rw [format_eq_sortedGroups xs h, List.length_flatten, List.map_map]
  have hconst : (List.length ∘ fun k : String =>
      [MessageBlock.sectionBlock "mrkdwn" ("*" ++ k ++ "*"),
       MessageBlock.sectionBlock "mrkdwn"
         (joinSep "\n" ((xs.filter (fun pr => pr.repo == k)).map bulletEntry))]) =
      fun _ => 2 := funext fun k => rfl
  rw [hconst, List.map_const', List.sum_replicate, smul_eq_mul, Nat.mul_comm]

theorem sortedRepoKeys_length (xs : List PullRequestSummary) :
    (sortedRepoKeys xs).length =
      ((xs.map PullRequestSummary.repo).dedup).length := by
  have hnd_keys : ((groupByRepo xs).map Prod.fst).Nodup := (groupByRepo_good xs).1
  have hperm := List.perm_insertionSort (fun a b : String => a ≤ b)
    ((groupByRepo xs).map Prod.fst)
  have hnd : (sortedRepoKeys xs).Nodup := hperm.nodup_iff.mpr hnd_keys
  have hndd : ((xs.map PullRequestSummary.repo).dedup).Nodup := List.nodup_dedup _
  have hfin : (sortedRepoKeys xs).toFinset =
      ((xs.map PullRequestSummary.repo).dedup).toFinset := by
    refine Finset.ext fun k => ?_
    simp only [List.mem_toFinset, List.mem_dedup]
    exact sortedRepoKeys_mem xs k
  calc (sortedRepoKeys xs).length
      = (sortedRepoKeys xs).toFinset.card := (List.toFinset_card_of_nodup hnd).symm
    _ = ((xs.map PullRequestSummary.repo).dedup).toFinset.card := by rw [hfin]
    _ = ((xs.map PullRequestSummary.repo).dedup).length :=
        List.toFinset_card_of_nodup hndd

theorem format_mem_sectionBlock (xs : List PullRequestSummary)
    (b : MessageBlock) (hb : b ∈ formatPullRequestsForSlack xs) :
    ∃ t, b = MessageBlock.sectionBlock "mrkdwn" t := by
  cases xs with
  | nil =>
    simp only [formatPullRequestsForSlack, List.mem_singleton] at hb
    exact ⟨_, hb⟩
  | cons x xs' =>
    have hb' : b ∈ ((collectGroups (groupByRepo (x :: xs'))).map groupBlocks).flatten := hb
    rw [List.mem_flatten] at hb'
    obtain ⟨l, hl, hbl⟩ := hb'
    rw [List.mem_map] at hl
    obtain ⟨g, _, rfl⟩ := hl
    simp only [groupBlocks, List.mem_cons, List.mem_singleton, List.not_mem_nil,
      or_false] at hbl
    rcases hbl with rfl | rfl
    · exact ⟨_, rfl⟩
    · exact ⟨_, rfl⟩

/-- Claim C10 (amended: the final revision has no header and no divider,
so the count is `2 * k`, not `2 + 2 * k`): a non-empty input with `k`
distinct repository names yields exactly `2 * k` blocks and never a
divider, and every block the formatter ever produces — for any input — is
a section block with mrkdwn text. -/
theorem formatPullRequestsForSlack_block_shape :
    (∀ xs : List PullRequestSummary, xs ≠ [] →
      (formatPullRequestsForSlack xs).length =
        2 * ((xs.map PullRequestSummary.repo).dedup).length ∧
      MessageBlock.divider ∉ formatPullRequestsForSlack xs) ∧
    (∀ (xs : List PullRequestSummary) (b : MessageBlock),
      b ∈ formatPullRequestsForSlack xs →
      ∃ t, b = MessageBlock.sectionBlock "mrkdwn" t) := by
  refine ⟨fun xs h => ⟨?_, fun hdiv => ?_⟩, format_mem_sectionBlock⟩
  · rw [format_length xs h, sortedRepoKeys_length]
  · obtain ⟨t, ht⟩ := format_mem_sectionBlock xs MessageBlock.divider hdiv
    exact MessageBlock.noConfusion ht

/-- Witness for C10 (amended) at a one-repository input: two blocks, no
divider. -/
theorem formatPullRequestsForSlack_block_shape_witness :
    (formatPullRequestsForSlack [⟨"Bump lodash", "u1", "inato/a"⟩]).length =
      2 * ((([⟨"Bump lodash", "u1", "inato/a"⟩] :
        List PullRequestSummary).map PullRequestSummary.repo).dedup).length ∧
    MessageBlock.divider ∉
      formatPullRequestsForSlack [⟨"Bump lodash", "u1", "inato/a"⟩] :=
  formatPullRequestsForSlack_block_shape.1 [⟨"Bump lodash", "u1", "inato/a"⟩]
    (by simp)

/-- Counterexample to claim C10 as stated: a one-repository input yields 2
blocks, not `2 + 2 * 1 = 4`, and the block at index 1 is not a divider. -/
theorem formatPullRequestsForSlack_block_count_counterexample :
    (formatPullRequestsForSlack [⟨"Bump lodash", "u1", "inato/a"⟩]).length = 2 ∧
    (formatPullRequestsForSlack [⟨"Bump lodash", "u1", "inato/a"⟩]).length ≠ 2 + 2 * 1 ∧
    (formatPullRequestsForSlack [⟨"Bump lodash", "u1", "inato/a"⟩])[1]? ≠
      some MessageBlock.divider := by
  decide

/-! ### Claims C2 and C8: empty input and determinism -/

/-- Claim C2 (amended: the source writes the celebration as the Slack
emoji shortcode `:tada:`, not the literal emoji character): the empty
input yields exactly one section block with the fixed text
`:tada: *No opened dependabot pull request*` — no header, no divider. -/
theorem formatPullRequestsForSlack_empty_eq :
    formatPullRequestsForSlack [] =
      [MessageBlock.sectionBlock "mrkdwn"
        ":tada: *No opened dependabot pull request*"] := rfl

/-- Counterexample to claim C2 as stated: the single block's text is the
`:tada:` shortcode string, which is not the claimed string starting with
the literal 🎉 character. -/
theorem formatPullRequestsForSlack_empty_text_counterexample :
    formatPullRequestsForSlack [] ≠
      [MessageBlock.sectionBlock "mrkdwn"
        "🎉 *No opened dependabot pull request*"] := by
  decide

/-- Claim C8: the formatter is a total pure function of its input
sequence alone — it is defined for every input (empty or not), and two
calls on equal inputs return structurally identical block lists. -/
theorem formatPullRequestsForSlack_deterministic
    (xs ys : List PullRequestSummary) (h : xs = ys) :
    formatPullRequestsForSlack xs = formatPullRequestsForSlack ys ∧
    formatPullRequestsForSlack xs = formatPullRequestsForSlack xs := by
  subst h
  exact ⟨rfl, rfl⟩

/-- Witness for C8 at a concrete input. -/
theorem formatPullRequestsForSlack_deterministic_witness :
    formatPullRequestsForSlack [⟨"Bump lodash", "u1", "inato/a"⟩] =
      formatPullRequestsForSlack [⟨"Bump lodash", "u1", "inato/a"⟩] ∧
    formatPullRequestsForSlack [⟨"Bump lodash", "u1", "inato/a"⟩] =
      formatPullRequestsForSlack [⟨"Bump lodash", "u1", "inato/a"⟩] :=
  formatPullRequestsForSlack_deterministic
    [⟨"Bump lodash", "u1", "inato/a"⟩] [⟨"Bump lodash", "u1", "inato/a"⟩] rfl
